import Mathlib

/-!
Shallow embedding of the type-representation core declared in
`include/swift/AST/Types.h` (an early-Swift AST type system): recursive
type properties, builtin integer widths, SIL parameter conventions,
metatype representation bits, structural interning, and the
canonicalization function, together with proofs of the specified
properties.

Machine integers are modelled as `Nat`; `unsigned` is 32 bits wide, so
the special values `~0U`, `~1U`, `~2U` appear as `2^32 - 1`, `2^32 - 2`,
`2^32 - 3`.  An `assert` whose failure aborts the process is modelled by
an `Option` result: `none` is the abort.
-/

namespace SwiftTypes

/-! ## ParameterConvention (Types.h, lines 2066-2118)

The six conventions for passing SIL arguments, in declaration order. The
underlying discriminant values are the C++ enumerator values 0..5. -/

inductive ParameterConvention where
  | Indirect_In
  | Indirect_Inout
  | Indirect_Out
  | Direct_Owned
  | Direct_Unowned
  | Direct_Guaranteed
deriving DecidableEq, Repr

/-- The numeric value of each enumerator, as assigned by declaration
order in the C++ `enum class ParameterConvention`. -/
def ParameterConvention.rawValue : ParameterConvention → Nat
  | .Indirect_In => 0
  | .Indirect_Inout => 1
  | .Indirect_Out => 2
  | .Direct_Owned => 3
  | .Direct_Unowned => 4
  | .Direct_Guaranteed => 5

/-- Source `isIndirectParameter(conv)`: the C++ code compares the
enumerator value against `Indirect_Out`
(`conv <= ParameterConvention::Indirect_Out`). -/
def isIndirectParameter (conv : ParameterConvention) : Bool :=
  conv.rawValue ≤ ParameterConvention.Indirect_Out.rawValue

/-- Source `isConsumedParameter(conv)` from the same header, by
exhaustive switch. -/
def isConsumedParameter (conv : ParameterConvention) : Bool :=
  match conv with
  | .Indirect_In => true
  | .Direct_Owned => true
  | .Indirect_Inout => false
  | .Indirect_Out => false
  | .Direct_Unowned => false
  | .Direct_Guaranteed => false

/-! ## BuiltinIntegerWidth (Types.h, lines 715-851)

A width descriptor is a raw 32-bit value; values at or above
`Least_SpecialValue = ~2U` are tags for abstract widths, with
`PointerWidth = ~0U`. -/

/-- Value of `~2U` on a 32-bit `unsigned`: the least tag value. -/
def Least_SpecialValue : Nat := 2 ^ 32 - 3

/-- Value of `~0U` on a 32-bit `unsigned`: the pointer-width tag. -/
def PointerWidth : Nat := 2 ^ 32 - 1

structure BuiltinIntegerWidth where
  RawValue : Nat
deriving DecidableEq, Repr

/-- Source `BuiltinIntegerWidth::fixed(bitWidth)`; the code asserts
`bitWidth < Least_SpecialValue`, so the factory is fallible here. -/
def BuiltinIntegerWidth.fixed (bitWidth : Nat) : Option BuiltinIntegerWidth :=
  if bitWidth < Least_SpecialValue then some ⟨bitWidth⟩ else none

/-- Source `BuiltinIntegerWidth::pointer()`. -/
def BuiltinIntegerWidth.pointer : BuiltinIntegerWidth := ⟨PointerWidth⟩

/-- Source `isFixedWidth()`: `RawValue < Least_SpecialValue`. -/
def BuiltinIntegerWidth.isFixedWidth (w : BuiltinIntegerWidth) : Bool :=
  w.RawValue < Least_SpecialValue

/-- Source `isPointerWidth()`: `RawValue == PointerWidth`. -/
def BuiltinIntegerWidth.isPointerWidth (w : BuiltinIntegerWidth) : Bool :=
  w.RawValue = PointerWidth

/-- Source `getFixedWidth()`: asserts `isFixedWidth()` (abort = `none`),
then returns the stored raw value. -/
def BuiltinIntegerWidth.getFixedWidth (w : BuiltinIntegerWidth) : Option Nat :=
  if w.isFixedWidth then some w.RawValue else none

/-- A `BuiltinIntegerType` node stores one width descriptor. -/
structure BuiltinIntegerType where
  Width : BuiltinIntegerWidth
deriving DecidableEq, Repr

/-- Source `BuiltinIntegerType::isFixedWidth()` delegates to the width. -/
def BuiltinIntegerType.isFixedWidth (t : BuiltinIntegerType) : Bool :=
  t.Width.isFixedWidth

/-- Source `BuiltinIntegerType::getFixedWidth()` delegates to
`Width.getFixedWidth()` (Types.h, lines 829-832). -/
def BuiltinIntegerType.getFixedWidth (t : BuiltinIntegerType) : Option Nat :=
  t.Width.getFixedWidth

/-! ## Metatype representation bits (Types.h, lines 214-223 and 1445-1509)

The two-bit `Representation` field of `AnyMetatypeTypeBits`: zero means
no representation has been set; otherwise the stored value is the
representation's enumerator value plus one. -/

inductive MetatypeRepresentation where
  | Thin
  | Thick
  | ObjC
deriving DecidableEq, Repr

/-- The C++ enumerator value: `Thin = 0`, `Thick = 1`, `ObjC = 2`. -/
def MetatypeRepresentation.rawValue : MetatypeRepresentation → Nat
  | .Thin => 0
  | .Thick => 1
  | .ObjC => 2

/-- Decode an enumerator value. -/
def MetatypeRepresentation.ofRaw : Nat → Option MetatypeRepresentation
  | 0 => some .Thin
  | 1 => some .Thick
  | 2 => some .ObjC
  | _ => none

/-- An `AnyMetatypeType` node: the instance type (an opaque handle here)
and the two-bit `Representation` field. -/
structure AnyMetatypeType where
  InstanceType : Nat
  Representation : Nat
deriving DecidableEq, Repr

/-- Modelled from the spec: the `AnyMetatypeType` constructor body lives
in an implementation file absent from `src/`; the header's bitfield
documentation (Types.h, lines 216-220) fixes the encoding — zero when no
representation is given, otherwise the representation value plus one,
stored in a two-bit field (so reduced mod 4). -/
def AnyMetatypeType.mk' (instanceType : Nat)
    (repr : Option MetatypeRepresentation) : AnyMetatypeType :=
  { InstanceType := instanceType
    Representation :=
      match repr with
      | none => 0
      | some r => (r.rawValue + 1) % 2 ^ 2 }

/-- Source `hasRepresentation()`:
`AnyMetatypeTypeBits.Representation > 0`. -/
def AnyMetatypeType.hasRepresentation (t : AnyMetatypeType) : Bool :=
  t.Representation > 0

/-- Source `getRepresentation()`: asserts the field is nonzero (abort =
`none`) and returns the stored value minus one, cast to the
enumeration. -/
def AnyMetatypeType.getRepresentation (t : AnyMetatypeType) :
    Option MetatypeRepresentation :=
  if t.Representation = 0 then none
  else MetatypeRepresentation.ofRaw (t.Representation - 1)

/-! ## Structural interning (FoldingSet)

Source `BuiltinVectorType::Profile` (Types.h, lines 701-705)
fingerprints a vector type as the element-type pointer followed by the
element count; the per-kind `get` factories probe a per-context folding
set with that fingerprint.  Nodes are modelled as numeric identities
(pointer identity); a fingerprint is the sequence of values added to
the `FoldingSetNodeID`. -/

/-- The per-context interning table: fingerprint-to-node entries plus
the next fresh node identity. -/
structure FoldingSet where
  entries : List (List Nat × Nat)
  nextNode : Nat
deriving DecidableEq, Repr

/-- Modelled from the spec: the folding-set probe performed by every
per-kind `get` factory (implemented in `ASTContext.cpp`, absent from
`src/`) — look the fingerprint up; on hit return the existing node, on
miss allocate a fresh node and insert it. -/
def FoldingSet.getOrInsert (fs : FoldingSet) (p : List Nat) :
    Nat × FoldingSet :=
  match fs.entries.find? (fun e => e.1 == p) with
  | some e => (e.2, fs)
  | none => (fs.nextNode, ⟨(p, fs.nextNode) :: fs.entries, fs.nextNode + 1⟩)

/-- Source `BuiltinVectorType::Profile(ID, elementType, numElements)`:
adds the element-type pointer, then the element count (Types.h, lines
701-705). -/
def BuiltinVectorType.Profile (elementType numElements : Nat) : List Nat :=
  [elementType, numElements]

/-- Source `BuiltinVectorType::get(context, elementType, numElements)`:
interns through the context's folding set keyed by `Profile`. -/
def BuiltinVectorType.get (fs : FoldingSet) (elementType numElements : Nat) :
    Nat × FoldingSet :=
  fs.getOrInsert (BuiltinVectorType.Profile elementType numElements)

/-! ## Opened-existential archetypes (Types.h, lines 2825-2957)

An existential type, for the purpose of opening, is a single protocol
or a composition; protocols are opaque declaration handles (`Nat`). -/

inductive ExistentialTy where
  | protocolTy (decl : Nat)
  | composition (protocols : List Nat)
deriving DecidableEq, Repr

/-- The protocols a value of the existential must conform to. -/
def ExistentialTy.protocols : ExistentialTy → List Nat
  | .protocolTy d => [d]
  | .composition ps => ps

/-- An opened-existential `ArchetypeType`: the existential it opens
(`ParentOrOpened`), the opened-existential ID
(`IndexIfPrimaryOrExistentialID`), and the conformance requirements. -/
structure ArchetypeType where
  OpenedExistential : ExistentialTy
  IndexIfPrimaryOrExistentialID : Nat
  ConformsTo : List Nat
deriving DecidableEq, Repr

/-- Source `getOpenedExistentialID()` (Types.h, lines 2921-2925). -/
def ArchetypeType.getOpenedExistentialID (a : ArchetypeType) : Nat :=
  a.IndexIfPrimaryOrExistentialID

/-- The context state feeding fresh opened-existential IDs. -/
structure OpenedIDState where
  LastOpenedID : Nat
deriving DecidableEq, Repr

/-- Modelled from the spec: `ArchetypeType::getOpened` (implemented in
`ASTContext.cpp`, absent from `src/`) — with no known ID, a fresh
archetype is allocated, tagged with the next value of a monotonically
increasing identifier and the existential's requirement set; with a
known ID, that ID is used and the counter is untouched. -/
def ArchetypeType.getOpened (st : OpenedIDState) (existential : ExistentialTy)
    (knownID : Option Nat) : ArchetypeType × OpenedIDState :=
  match knownID with
  | some i =>
    (⟨existential, i, existential.protocols⟩, st)
  | none =>
    let fresh := st.LastOpenedID + 1
    (⟨existential, fresh, existential.protocols⟩, ⟨fresh⟩)

/-! ## RecursiveTypeProperties (Types.h, lines 75-152)

The three-bit derived property set; `operator+` is bitwise or. -/

/-- Property `HasTypeVariable = 0x01`. -/
def HasTypeVariable : Nat := 1

/-- Property `IsDependent = 0x02`. -/
def IsDependent : Nat := 2

/-- Property `IsNotMaterializable = 0x04`. -/
def IsNotMaterializable : Nat := 4

structure RecursiveTypeProperties where
  Bits : Nat
deriving DecidableEq, Repr

/-- Source `hasTypeVariable()`: `Bits & HasTypeVariable`. -/
def RecursiveTypeProperties.hasTypeVariable (p : RecursiveTypeProperties) : Bool :=
  p.Bits &&& HasTypeVariable != 0

/-- Source `isDependent()`: `Bits & IsDependent`. -/
def RecursiveTypeProperties.isDependent (p : RecursiveTypeProperties) : Bool :=
  p.Bits &&& IsDependent != 0

/-- Source `isMaterializable()`: `!(Bits & IsNotMaterializable)`. -/
def RecursiveTypeProperties.isMaterializable (p : RecursiveTypeProperties) : Bool :=
  !(p.Bits &&& IsNotMaterializable != 0)

/-- Source `operator+` (Types.h, lines 125-128): bitwise or of the two
sets. -/
def RecursiveTypeProperties.plus (l r : RecursiveTypeProperties) :
    RecursiveTypeProperties :=
  ⟨l.Bits ||| r.Bits⟩

/-! ## Type nodes

A deep embedding of the node families the claims are about.  Tuple
fields carry an optional label, a variadic flag, and the field type
(`TupleTypeElt`, Types.h, lines 938-1023); declaration handles and
identifiers are opaque `Nat`s. -/

mutual
inductive Ty where
  | builtin (id : Nat)
  | typeVar (id : Nat)
  | nameAlias (decl : Nat) (underlying : Ty)
  | paren (underlying : Ty)
  | tuple (fields : TupleFields)
  | genericParam (depth index : Nat)
  | depMember (name : Nat) (base : Ty)
  | boundGeneric (decl : Nat) (args : TyList)
  | lvalue (objectTy : Ty)

inductive TupleFields where
  | nil
  | cons (name : Option Nat) (isVararg : Bool) (ty : Ty) (rest : TupleFields)

inductive TyList where
  | nil
  | cons (head : Ty) (tail : TyList)
end

/-! ## Property propagator

Modelled from the spec: the property bitsets are computed by the `get`
factories in `ASTContext.cpp`, absent from `src/`.  The rules follow
spec section 4.1 and the constructors present in the header: an
inference variable is intrinsically type-variable-bearing; a generic
parameter is intrinsically dependent (`GenericTypeParamType`
constructor, Types.h lines 3033-3043) and so is a dependent member
built from one; an l-value wrapper is intrinsically non-materializable;
sugar passes its underlying type's bits through; a tuple contributes the
bitwise or of its fields with no intrinsic bits; a bound generic
application merges its arguments' bits but is not itself marked
dependent (spec section 4.1; `isDependentType` doc, Types.h lines
335-339). -/

mutual
def props : Ty → RecursiveTypeProperties
  | .builtin _ => ⟨0⟩
  | .typeVar _ => ⟨HasTypeVariable⟩
  | .nameAlias _ u => props u
  | .paren u => props u
  | .tuple fields => fieldsProps fields
  | .genericParam _ _ => ⟨IsDependent⟩
  | .depMember _ base => (props base).plus ⟨IsDependent⟩
  | .boundGeneric _ args =>
    ⟨(argsProps args).Bits &&& (HasTypeVariable ||| IsNotMaterializable)⟩
  | .lvalue o => (props o).plus ⟨IsNotMaterializable⟩

def fieldsProps : TupleFields → RecursiveTypeProperties
  | .nil => ⟨0⟩
  | .cons _ _ t rest => (props t).plus (fieldsProps rest)

def argsProps : TyList → RecursiveTypeProperties
  | .nil => ⟨0⟩
  | .cons t rest => (props t).plus (argsProps rest)
end

/-- Source `TypeBase::isDependentType()` (Types.h, lines 340-342): reads
the `IsDependent` bit of the stored property set. -/
def TypeBase.isDependentType (t : Ty) : Bool :=
  (props t).isDependent

/-- Source `TypeBase::hasTypeVariable()` (Types.h, lines 321-323). -/
def TypeBase.hasTypeVariable (t : Ty) : Bool :=
  (props t).hasTypeVariable

/-! ## Canonicalization -/

/-- Does a field list consist of exactly one element that is unlabeled
and not variadic?  (The condition of `TupleType::get`, Types.h lines
1043-1046.) -/
def isSingletonScalar : TupleFields → Bool
  | .nil => false
  | .cons name isVararg _ .nil => name.isNone && !isVararg
  | .cons _ _ _ (.cons _ _ _ _) => false

/-- The tuple reduction rule applied to an already-canonicalized field
list: a single unlabeled non-variadic element reduces to the element
type, anything else stays a tuple node. -/
def canonTuple : TupleFields → Ty
  | .nil => .tuple .nil
  | .cons name isVararg t .nil =>
    if name.isNone && !isVararg then t else .tuple (.cons name isVararg t .nil)
  | .cons name isVararg t (.cons name' isVararg' t' rest') =>
    .tuple (.cons name isVararg t (.cons name' isVararg' t' rest'))

mutual
/-- Modelled from the spec: `getCanonicalType`'s recursive computation
lives in `Type.cpp`, absent from `src/`.  Per spec section 4.2 the
canonicalizer recursively canonicalizes children and applies each
family's reduction rule: sugar (alias, paren) is stripped, a tuple of
exactly one unlabeled non-variadic element reduces to its element type,
all other nodes are rebuilt from canonical children. -/
def canon : Ty → Ty
  | .builtin i => .builtin i
  | .typeVar i => .typeVar i
  | .nameAlias _ u => canon u
  | .paren u => canon u
  | .tuple fields => canonTuple (canonFields fields)
  | .genericParam d i => .genericParam d i
  | .depMember n b => .depMember n (canon b)
  | .boundGeneric d args => .boundGeneric d (canonArgs args)
  | .lvalue o => .lvalue (canon o)

def canonFields : TupleFields → TupleFields
  | .nil => .nil
  | .cons name isVararg t rest => .cons name isVararg (canon t) (canonFields rest)

def canonArgs : TyList → TyList
  | .nil => .nil
  | .cons t rest => .cons (canon t) (canonArgs rest)
end

mutual
/-- Is a node canonical?  Sugar never is; a tuple additionally must not
be reducible by the singleton rule; all children must be canonical
(spec, invariant "Canonical closure"). -/
def isCanonical : Ty → Bool
  | .builtin _ => true
  | .typeVar _ => true
  | .nameAlias _ _ => false
  | .paren _ => false
  | .tuple fields => ! isSingletonScalar fields && fieldsCanonical fields
  | .genericParam _ _ => true
  | .depMember _ b => isCanonical b
  | .boundGeneric _ args => argsCanonical args
  | .lvalue o => isCanonical o

def fieldsCanonical : TupleFields → Bool
  | .nil => true
  | .cons _ _ t rest => isCanonical t && fieldsCanonical rest

def argsCanonical : TyList → Bool
  | .nil => true
  | .cons t rest => isCanonical t && argsCanonical rest
end

/-! ## The lazily-filled canonical-form slot (Types.h, lines 172-260)

Field `TypeBase::CanonicalType` is a union: canonical nodes hold their
context back-reference (modelled by `isCanonical` being true of the
node's structure), non-canonical nodes hold the not-yet-computed or
already-computed canonical form. -/

structure Node where
  ty : Ty
  CanonicalType : Option Ty

/-- Source `getCanonicalType()`: a canonical node returns itself;
otherwise the slot is consulted, and filled on first request. -/
def Node.getCanonicalType (n : Node) : Ty × Node :=
  if isCanonical n.ty then (n.ty, n)
  else
    match n.CanonicalType with
    | some c => (c, n)
    | none => (canon n.ty, { n with CanonicalType := some (canon n.ty) })

/-! ## `TupleType::get` (Types.h, lines 1042-1047) -/

/-- Modelled from the spec: the body of `TupleType::get` lives in
`ASTContext.cpp`, absent from `src/`; the declaration's doc comment
(Types.h, lines 1043-1046) states the behaviour — return a `ParenType`
instead if there is exactly one element which is unlabeled and not
varargs, otherwise the uniqued tuple node for the field list. -/
def TupleType.get : TupleFields → Ty
  | .nil => .tuple .nil
  | .cons name isVararg t .nil =>
    if name.isNone && !isVararg then .paren t
    else .tuple (.cons name isVararg t .nil)
  | .cons name isVararg t (.cons name' isVararg' t' rest') =>
    .tuple (.cons name isVararg t (.cons name' isVararg' t' rest'))

/-! ## Field bitsets as a plain list -/

/-- The property bitsets of each field's type, in order. -/
def fieldBitsList : TupleFields → List Nat
  | .nil => []
  | .cons _ _ t rest => (props t).Bits :: fieldBitsList rest

/-! ## Protocol composition canonicalization (Types.h, lines 2543-2644) -/

/-- The declaration-registry view the canonicalizer consumes: each
protocol handle's owning module, and whether one protocol's
requirements (direct or transitive inheritance) include another. -/
structure ProtocolEnv where
  module : Nat → Nat
  inherits : Nat → Nat → Bool

/-- The stable total order on protocols: by module, then by name (the
handle itself stands for the name). -/
def protoLE (env : ProtocolEnv) (a b : Nat) : Bool :=
  env.module a < env.module b || (env.module a == env.module b && a ≤ b)

def insertProto (env : ProtocolEnv) (a : Nat) : List Nat → List Nat
  | [] => [a]
  | b :: rest =>
    if protoLE env a b then a :: b :: rest else b :: insertProto env a rest

def sortProtocols (env : ProtocolEnv) : List Nat → List Nat
  | [] => []
  | a :: rest => insertProto env a (sortProtocols env rest)

/-- Modelled from the spec: `ProtocolType::canonicalizeProtocols`
(declared at Types.h lines 2567-2570, implemented in `Type.cpp`, absent
from `src/`) — eliminate any mention of a protocol already covered by
inheritance due to another entry in the list, then sort the remainder
in the stable (module, name) order. -/
def ProtocolType.canonicalizeProtocols (env : ProtocolEnv)
    (protocols : List Nat) : List Nat :=
  sortProtocols env
    (protocols.filter (fun p => ! protocols.any (fun q => q != p && env.inherits q p)))

/-- Modelled from the spec: the canonical form produced by
`ProtocolCompositionType::get` (contract documented at Types.h lines
2593-2597, implemented in `ASTContext.cpp`, absent from `src/`) — the
sorted, minimized protocol list; if a single protocol remains the
canonical type is that protocol type, otherwise a composition of the
protocols in that list. -/
def ProtocolCompositionType.get (env : ProtocolEnv)
    (protocols : List Nat) : ExistentialTy :=
  match ProtocolType.canonicalizeProtocols env protocols with
  | [q] => .protocolTy q
  | ps => .composition ps

/-! ## Interning lemmas -/

theorem FoldingSet.getOrInsert_mem (fs : FoldingSet) (p : List Nat) :
    ((fs.getOrInsert p).2.entries.find? (fun e => e.1 == p)) =
      some (p, (fs.getOrInsert p).1) := by
  unfold FoldingSet.getOrInsert
  cases h : fs.entries.find? (fun e => e.1 == p) with
  | none =>
    exact List.find?_cons_of_pos _ (by simp)
  | some e =>
    have heq : e.1 = p := by simpa using List.find?_some h
    rw [h]
    exact congrArg some (Prod.ext heq rfl)

/-- Probing twice with the same fingerprint returns the same node and
leaves the table unchanged the second time. -/
theorem FoldingSet.getOrInsert_idem (fs : FoldingSet) (p : List Nat) :
    (fs.getOrInsert p).2.getOrInsert p =
      ((fs.getOrInsert p).1, (fs.getOrInsert p).2) := by
  have h := FoldingSet.getOrInsert_mem fs p
  conv_lhs => rw [FoldingSet.getOrInsert]
  rw [h]

/-! ## Canonicalization lemmas -/

theorem isSingletonScalar_canonFields (fs : TupleFields) :
    isSingletonScalar (canonFields fs) = isSingletonScalar fs := by
  match fs with
  | .nil => rfl
  | .cons name v t .nil => rfl
  | .cons name v t (.cons name' v' t' rest') => rfl

theorem canonTuple_of_not_singleton (fs : TupleFields)
    (h : isSingletonScalar fs = false) : canonTuple fs = .tuple fs := by
  match fs with
  | .nil => rfl
  | .cons name v t .nil =>
    have h' : (name.isNone && !v) = false := h
    simp only [canonTuple, h']
    rfl
  | .cons name v t (.cons name' v' t' rest') => rfl

theorem isCanonical_canonTuple (fs : TupleFields)
    (h : fieldsCanonical fs = true) : isCanonical (canonTuple fs) = true := by
  match fs with
  | .nil => rfl
  | .cons name v t .nil =>
    by_cases hnv : (name.isNone && !v) = true
    · simp only [canonTuple, hnv, if_true]
      simp only [fieldsCanonical, Bool.and_eq_true] at h
      exact h.1
    · have hnv' : (name.isNone && !v) = false := by simpa using hnv
      simp only [canonTuple, hnv', if_false, Bool.false_eq_true]
      simp only [isCanonical, isSingletonScalar, hnv', h, Bool.not_false, Bool.and_self]
  | .cons name v t (.cons name' v' t' rest') =>
    simp only [canonTuple, isCanonical, isSingletonScalar, h, Bool.not_false, Bool.and_self]

mutual
theorem canon_canonical : ∀ t : Ty, isCanonical (canon t) = true
  | .builtin _ => rfl
  | .typeVar _ => rfl
  | .nameAlias _ u => canon_canonical u
  | .paren u => canon_canonical u
  | .tuple fields => by
    simp only [canon]
    exact isCanonical_canonTuple _ (canonFields_canonical fields)
  | .genericParam _ _ => rfl
  | .depMember n b => by
    simp only [canon, isCanonical]
    exact canon_canonical b
  | .boundGeneric d args => by
    simp only [canon, isCanonical]
    exact canonArgs_canonical args
  | .lvalue o => by
    simp only [canon, isCanonical]
    exact canon_canonical o

theorem canonFields_canonical : ∀ fs : TupleFields,
    fieldsCanonical (canonFields fs) = true
  | .nil => rfl
  | .cons name v t rest => by
    simp only [canonFields, fieldsCanonical, canon_canonical t,
      canonFields_canonical rest, Bool.and_self]

theorem canonArgs_canonical : ∀ args : TyList,
    argsCanonical (canonArgs args) = true
  | .nil => rfl
  | .cons t rest => by
    simp only [canonArgs, argsCanonical, canon_canonical t,
      canonArgs_canonical rest, Bool.and_self]
end

mutual
theorem canon_fix : ∀ t : Ty, isCanonical t = true → canon t = t
  | .builtin _, _ => rfl
  | .typeVar _, _ => rfl
  | .nameAlias _ u, h => by simp [isCanonical] at h
  | .paren u, h => by simp [isCanonical] at h
  | .tuple fields, h => by
    simp only [isCanonical, Bool.and_eq_true, Bool.not_eq_true'] at h
    simp only [canon, canonFields_fix fields h.2]
    exact canonTuple_of_not_singleton fields h.1
  | .genericParam _ _, _ => rfl
  | .depMember n b, h => by
    simp only [isCanonical] at h
    simp only [canon, canon_fix b h]
  | .boundGeneric d args, h => by
    simp only [isCanonical] at h
    simp only [canon, canonArgs_fix args h]
  | .lvalue o, h => by
    simp only [isCanonical] at h
    simp only [canon, canon_fix o h]

theorem canonFields_fix : ∀ fs : TupleFields,
    fieldsCanonical fs = true → canonFields fs = fs
  | .nil, _ => rfl
  | .cons name v t rest, h => by
    simp only [fieldsCanonical, Bool.and_eq_true] at h
    simp only [canonFields, canon_fix t h.1, canonFields_fix rest h.2]

theorem canonArgs_fix : ∀ args : TyList,
    argsCanonical args = true → canonArgs args = args
  | .nil, _ => rfl
  | .cons t rest, h => by
    simp only [argsCanonical, Bool.and_eq_true] at h
    simp only [canonArgs, canon_fix t h.1, canonArgs_fix rest h.2]
end

theorem canon_idem (t : Ty) : canon (canon t) = canon t :=
  canon_fix (canon t) (canon_canonical t)

theorem Node.getCanonicalType_stable (n : Node) :
    n.getCanonicalType.2.getCanonicalType =
      (n.getCanonicalType.1, n.getCanonicalType.2) := by
  by_cases h : isCanonical n.ty = true
  · simp [Node.getCanonicalType, h]
  · have h' : isCanonical n.ty = false := by simpa using h
    cases hc : n.CanonicalType with
    | some c => simp [Node.getCanonicalType, h', hc]
    | none => simp [Node.getCanonicalType, h', hc]

/-! ## Bit lemmas for the dependent mark -/

theorem mask_kills_dependent (x : Nat) :
    (x &&& (HasTypeVariable ||| IsNotMaterializable)) &&& IsDependent = 0 := by
  have h5 : (HasTypeVariable ||| IsNotMaterializable) &&& IsDependent = 0 := by decide
  rw [Nat.and_assoc, h5, Nat.and_zero]

theorem or_dependent_and_dependent_ne_zero (x : Nat) :
    ((x ||| IsDependent) &&& IsDependent) ≠ 0 := by
  intro h
  have h2 : Nat.testBit IsDependent 1 = true := by decide
  have hb : ((x ||| IsDependent) &&& IsDependent).testBit 1 = true := by
    rw [Nat.testBit_and, Nat.testBit_or, h2]
    simp
  rw [h] at hb
  simp at hb

/-! ## Claim theorems -/

/-- C1: two calls to a per-kind factory `get(...)` with equal arguments
against the same owning context return the identical node instance: the
second probe of the interning table with the same fingerprint returns
the node the first call produced and leaves the table unchanged, and in
particular `BuiltinVectorType::get` called twice with the same element
type and element count yields the same node. -/
theorem get_returns_identical_instance :
    (∀ (fs : FoldingSet) (p : List Nat),
      (fs.getOrInsert p).2.getOrInsert p =
        ((fs.getOrInsert p).1, (fs.getOrInsert p).2)) ∧
    (∀ (fs : FoldingSet) (elementType numElements : Nat),
      (BuiltinVectorType.get
          (BuiltinVectorType.get fs elementType numElements).2
          elementType numElements).1 =
        (BuiltinVectorType.get fs elementType numElements).1) :=
  ⟨FoldingSet.getOrInsert_idem,
   fun fs elementType numElements =>
     congrArg Prod.fst
       (FoldingSet.getOrInsert_idem fs
         (BuiltinVectorType.Profile elementType numElements))⟩

/-- C2: canonicalization is idempotent — `canon (canon T) = canon T`
for every type; a node whose structure is canonical is its own
canonical form; and the lazily filled canonical-form slot, once the
first `getCanonicalType` request has resolved it, yields the same
canonical node on every subsequent request without further change. -/
theorem canonicalize_idempotent :
    (∀ t : Ty, canon (canon t) = canon t) ∧
    (∀ t : Ty, isCanonical t = true → canon t = t) ∧
    (∀ n : Node,
      n.getCanonicalType.2.getCanonicalType =
        (n.getCanonicalType.1, n.getCanonicalType.2)) :=
  ⟨canon_idem, canon_fix, Node.getCanonicalType_stable⟩

/-- Witness for C2 at the concrete canonical input `builtin 0`. -/
theorem canonicalize_idempotent_witness :
    canon (Ty.builtin 0) = Ty.builtin 0 :=
  canonicalize_idempotent.2.1 (Ty.builtin 0) rfl

/-- C3: a bound generic application is never itself marked dependent,
whatever its arguments' properties are; only generic-parameter nodes
and dependent-member nodes carry the dependent mark intrinsically. -/
theorem bound_generic_application_not_dependent :
    (∀ (decl : Nat) (args : TyList),
      TypeBase.isDependentType (Ty.boundGeneric decl args) = false) ∧
    (∀ (depth index : Nat),
      TypeBase.isDependentType (Ty.genericParam depth index) = true) ∧
    (∀ (name : Nat) (base : Ty),
      TypeBase.isDependentType (Ty.depMember name base) = true) := by
  refine ⟨?_, ?_, ?_⟩
  · intro decl args
    simp only [TypeBase.isDependentType, props,
      RecursiveTypeProperties.isDependent, mask_kills_dependent]
    rfl
  · intro depth index
    simp only [TypeBase.isDependentType, props,
      RecursiveTypeProperties.isDependent]
    decide
  · intro name base
    simp only [TypeBase.isDependentType, props, RecursiveTypeProperties.plus,
      RecursiveTypeProperties.isDependent]
    exact bne_iff_ne.mpr (or_dependent_and_dependent_ne_zero (props base).Bits)

/-- C4: for every element list of exactly one unlabeled non-variadic
element, `TupleType::get` returns a parenthesized-sugar node wrapping
the element rather than a one-element tuple node, and the canonical
form of the result equals the canonical form of the element's type. -/
theorem tuple_get_singleton_collapses_to_paren :
    ∀ t : Ty,
      TupleType.get (TupleFields.cons none false t TupleFields.nil) =
        Ty.paren t ∧
      canon (TupleType.get (TupleFields.cons none false t TupleFields.nil)) =
        canon t := by
  intro t
  refine ⟨rfl, ?_⟩
  show canon (Ty.paren t) = canon t
  simp only [canon]

/-- C5: given protocols `P` and `Q` where `Q`'s requirements include
`P`, the composition of `[P, Q]` canonicalizes to exactly the single
protocol type `Q`: inheritance-implied protocols are dropped, the
remainder is sorted, and a remaining singleton collapses to that
protocol type rather than a composition. -/
theorem composition_inherited_collapses :
    ∀ (env : ProtocolEnv) (P Q : Nat),
      P ≠ Q →
      env.inherits Q P = true →
      env.inherits P Q = false →
      ProtocolCompositionType.get env [P, Q] = ExistentialTy.protocolTy Q := by
  intro env P Q hne hQP hPQ
  have hPQ' : (P != Q) = true := bne_iff_ne.mpr hne
  have hQP' : (Q != P) = true := bne_iff_ne.mpr (Ne.symm hne)
  unfold ProtocolCompositionType.get ProtocolType.canonicalizeProtocols
  simp [List.filter, List.any, hQP, hPQ, hPQ', hQP', sortProtocols, insertProto]

/-- Witness for C5 with a two-protocol registry in which protocol 1
inherits protocol 0. -/
theorem composition_inherited_collapses_witness :
    ProtocolCompositionType.get
        ⟨fun _ => 0, fun q p => q == 1 && p == 0⟩ [0, 1] =
      ExistentialTy.protocolTy 1 :=
  composition_inherited_collapses
    ⟨fun _ => 0, fun q p => q == 1 && p == 0⟩ 0 1
    (by decide) (by decide) (by decide)

/-- C6: a tuple node's derived property bitset is exactly the bitwise
or of its children's bitsets, with no extra bits. -/
theorem tuple_properties_are_or_of_children :
    ∀ fields : TupleFields,
      (props (Ty.tuple fields)).Bits =
        (fieldBitsList fields).foldr (fun a b => a ||| b) 0
  | .nil => rfl
  | .cons name v t rest => by
    have ih := tuple_properties_are_or_of_children rest
    simp only [props] at ih ⊢
    simp only [fieldsProps, RecursiveTypeProperties.plus, fieldBitsList,
      List.foldr]
    rw [ih]

/-- C7: opening the same existential twice with no known ID yields two
archetypes that are not identical — their opened-existential IDs differ
— even though their conformance requirement sets are structurally
equal. -/
theorem fresh_opens_not_unified :
    ∀ (st : OpenedIDState) (existential : ExistentialTy),
      (ArchetypeType.getOpened st existential none).1 ≠
        (ArchetypeType.getOpened
          (ArchetypeType.getOpened st existential none).2 existential none).1 ∧
      (ArchetypeType.getOpened st existential none).1.ConformsTo =
        (ArchetypeType.getOpened
          (ArchetypeType.getOpened st existential none).2 existential none).1.ConformsTo ∧
      (ArchetypeType.getOpened st existential none).1.getOpenedExistentialID ≠
        (ArchetypeType.getOpened
          (ArchetypeType.getOpened st existential none).2 existential none).1.getOpenedExistentialID := by
  intro st e
  refine ⟨fun h => ?_, rfl, fun h => ?_⟩
  · have h' := congrArg ArchetypeType.IndexIfPrimaryOrExistentialID h
    simp only [ArchetypeType.getOpened] at h'
    omega
  · simp only [ArchetypeType.getOpened,
      ArchetypeType.getOpenedExistentialID] at h
    omega

/-- C8: requesting a fixed bit width from an abstract-width descriptor
aborts (`getFixedWidth` hits its assertion, modelled as `none`); the
pointer width is such a descriptor; and under the precondition
`isFixedWidth`, the abort branch is unreachable and the stored width
value is returned. -/
theorem getFixedWidth_aborts_on_abstract_width :
    (∀ w : BuiltinIntegerWidth,
      w.isFixedWidth = false → w.getFixedWidth = none) ∧
    BuiltinIntegerWidth.pointer.isFixedWidth = false ∧
    BuiltinIntegerWidth.pointer.getFixedWidth = none ∧
    (∀ t : BuiltinIntegerType,
      t.isFixedWidth = true → t.getFixedWidth = some t.Width.RawValue) := by
  refine ⟨?_, by decide, by decide, ?_⟩
  · intro w h
    simp [BuiltinIntegerWidth.getFixedWidth, h]
  · intro t h
    simp only [BuiltinIntegerType.isFixedWidth] at h
    simp [BuiltinIntegerType.getFixedWidth, BuiltinIntegerWidth.getFixedWidth, h]

/-- Witness for C8: the pointer-width descriptor aborts, and the
fixed-width-8 integer type returns its stored width. -/
theorem getFixedWidth_aborts_on_abstract_width_witness :
    BuiltinIntegerWidth.pointer.getFixedWidth = none ∧
    BuiltinIntegerType.getFixedWidth ⟨⟨8⟩⟩ = some 8 :=
  ⟨getFixedWidth_aborts_on_abstract_width.1 BuiltinIntegerWidth.pointer
     (by decide),
   getFixedWidth_aborts_on_abstract_width.2.2.2 ⟨⟨8⟩⟩ (by decide)⟩

/-- C9: `isIndirectParameter` returns true exactly on the three
indirect conventions, which are declared first in the enumeration, so
the order comparison against `Indirect_Out` characterizes them. -/
theorem isIndirectParameter_characterization :
    ∀ conv : ParameterConvention,
      isIndirectParameter conv = true ↔
        (conv = ParameterConvention.Indirect_In ∨
         conv = ParameterConvention.Indirect_Inout ∨
         conv = ParameterConvention.Indirect_Out) := by
  intro conv
  cases conv <;> decide

/-- C10: a metatype constructed with representation `r` stores `r + 1`
in the two-bit field, so `hasRepresentation` is true and
`getRepresentation` returns exactly `r`; constructed with no
representation it stores 0, `hasRepresentation` is false, and
`getRepresentation` hits its asserted precondition. -/
theorem metatype_representation_shifted_encoding :
    (∀ (instanceType : Nat) (r : MetatypeRepresentation),
      (AnyMetatypeType.mk' instanceType (some r)).Representation =
          r.rawValue + 1 ∧
      (AnyMetatypeType.mk' instanceType (some r)).hasRepresentation = true ∧
      (AnyMetatypeType.mk' instanceType (some r)).getRepresentation =
          some r) ∧
    (∀ instanceType : Nat,
      (AnyMetatypeType.mk' instanceType none).Representation = 0 ∧
      (AnyMetatypeType.mk' instanceType none).hasRepresentation = false ∧
      (AnyMetatypeType.mk' instanceType none).getRepresentation = none) := by
  refine ⟨?_, ?_⟩
  · intro instanceType r
    cases r <;> exact ⟨rfl, rfl, rfl⟩
  · intro instanceType
    exact ⟨rfl, rfl, rfl⟩

end SwiftTypes
